import Mathlib

/-!
Verification development for the workbook ingestion and aggregation pipeline
in scripts/build_tables.py (repository Ethos-).

The Python source is shallowly embedded: Python floats are modelled as exact
rationals, Python dicts as insertion-ordered association lists, and Python
exceptions that can escape a function as Except Unit results.  Every
definition is translated from the source file; deviations forced by the
modelling (exact rationals instead of IEEE doubles, ASCII case folding) are
noted in the doc comments.
-/

set_option maxRecDepth 10000

/- The library marks the arithmetic on Rat irreducible; concrete evaluation
in proofs below relies on definitional unfolding, so restore the default
reducibility inside this file. -/
attribute [local semireducible] Rat.add Rat.mul Rat.sub Rat.inv Rat.ofScientific

/-- Equality of run results is decidable, used to evaluate the pipeline on
concrete inputs. -/
instance {ε α : Type} [DecidableEq ε] [DecidableEq α] : DecidableEq (Except ε α)
  | .error a, .error b =>
    if h : a = b then .isTrue (by rw [h]) else .isFalse (by intro hc; cases hc; exact h rfl)
  | .error _, .ok _ => .isFalse (by intro hc; cases hc)
  | .ok _, .error _ => .isFalse (by intro hc; cases hc)
  | .ok a, .ok b =>
    if h : a = b then .isTrue (by rw [h]) else .isFalse (by intro hc; cases hc; exact h rfl)

namespace Ethos

/-- Association-list lookup, first binding wins; models lookup in a Python
dict (the update operations below keep keys unique, so first = only). -/
def alookup {K V : Type} [DecidableEq K] : List (K × V) → K → Option V
  | [], _ => none
  | (k, v) :: t, j => if k = j then some v else alookup t j

/-- Python dict update in insertion order: replace the value of an existing
binding in place, or append a fresh binding (built from the default) at the
end.  Models both defaultdict accumulation and dict.setdefault followed by
mutation. -/
def updD {K V : Type} [DecidableEq K] : List (K × V) → K → (V → V) → V → List (K × V)
  | [], k, f, d => [(k, f d)]
  | (k', v) :: t, k, f, d => if k' = k then (k', f v) :: t else (k', v) :: updD t k f d

/-- Plain dict assignment d[k] = v. -/
def dictSet {K V : Type} [DecidableEq K] (m : List (K × V)) (k : K) (v : V) : List (K × V) :=
  updD m k (fun _ => v) v

/-- Numeric value of a list of decimal digit characters. -/
def digitsVal (ds : List Char) : Nat := ds.foldl (fun a c => a * 10 + (c.toNat - 48)) 0

/-- Integer powers of ten as a rational, for exponents of either sign. -/
def pow10 (e : Int) : Rat :=
  if 0 ≤ e then ((10 : Rat) ^ e.toNat) else 1 / ((10 : Rat) ^ (-e).toNat)

/-- CPython float(s) on a decimal literal: optional sign, integer digits,
optional fractional digits (at least one digit overall), optional decimal
exponent.  Returns none where float() raises ValueError.  The model covers
finite decimal literals only: the named non-finite literals (inf, nan) and
digit-group underscores accepted by CPython are outside the exact-rational
model and are rejected here; no caller in the pipeline feeds them. -/
def pyFloat? (s : String) : Option Rat :=
  let cs := s.data
  let sgncs : Int × List Char :=
    match cs with
    | '+' :: r => (1, r)
    | '-' :: r => (-1, r)
    | r => (1, r)
  let sgn := sgncs.1
  let (ip, r1) := sgncs.2.span (·.isDigit)
  let fpr2 : List Char × List Char :=
    match r1 with
    | '.' :: r => r.span (·.isDigit)
    | _ => ([], r1)
  let fp := fpr2.1
  let r2 := fpr2.2
  if ip = [] ∧ fp = [] then none
  else
    let mant : Int := sgn * ((digitsVal ip) * 10 ^ fp.length + digitsVal fp)
    let base : Rat := (mant : Rat) / (10 : Rat) ^ fp.length
    match r2 with
    | [] => some base
    | e :: r3 =>
      if e = 'e' ∨ e = 'E' then
        let esr : Int × List Char :=
          match r3 with
          | '+' :: r => (1, r)
          | '-' :: r => (-1, r)
          | r => (1, r)
        let (ed, r5) := esr.2.span (·.isDigit)
        if ed = [] ∨ r5 ≠ [] then none
        else some (base * pow10 (esr.1 * digitsVal ed))
      else none

/-- Python s.replace with a one-character comma pattern and empty
replacement: remove every comma. -/
def stripCommas (s : String) : String := String.mk (s.data.filter (fun c => c ≠ ','))

/-- Python str.strip with no argument: drop leading and trailing whitespace
(the ASCII whitespace characters; the rare extra Unicode spaces Python also
strips do not occur in this data). -/
def pyStrip (s : String) : String :=
  String.mk ((s.data.dropWhile Char.isWhitespace).reverse.dropWhile Char.isWhitespace).reverse

/-- Maximal runs of non-whitespace characters (Python str.split with no
argument). -/
def wordsOf : List Char → List (List Char)
  | [] => []
  | c :: rest =>
    if c.isWhitespace then wordsOf rest
    else
      match rest with
      | [] => [[c]]
      | c2 :: _ =>
        if c2.isWhitespace then [c] :: wordsOf rest
        else
          match wordsOf rest with
          | [] => [[c]]
          | w :: t => (c :: w) :: t

/-- CPython int(s): optional surrounding whitespace, optional sign, at least
one decimal digit (digit-group underscores are not modelled).  Returns none
where int() raises ValueError. -/
def pyInt? (s : String) : Option Int :=
  let cs := (pyStrip s).data
  let sgncs : Int × List Char :=
    match cs with
    | '+' :: r => (1, r)
    | '-' :: r => (-1, r)
    | r => (1, r)
  if sgncs.2 ≠ [] ∧ sgncs.2.all (·.isDigit) then some (sgncs.1 * digitsVal sgncs.2) else none

/-- A Python value as seen by to_float: None, a string, or an already numeric
value (int or float, both modelled as a rational). -/
inductive PyVal where
  | none : PyVal
  | str : String → PyVal
  | num : Rat → PyVal
deriving DecidableEq

/-- to_float from scripts/build_tables.py: None and non-numeric text coerce
silently to 0.0, text has every comma removed and is trimmed first, numeric
input passes through unchanged. -/
def to_float : PyVal → Rat
  | .none => 0
  | .str s =>
    let cleaned := pyStrip (stripCommas s)
    if cleaned = "" then 0 else (pyFloat? cleaned).getD 0
  | .num q => q

/-- Lift an optional sheet cell value into a PyVal for to_float. -/
def toFloatOpt (v : Option String) : Rat :=
  to_float (match v with | some s => .str s | none => .none)

/-- A proleptic Gregorian calendar date, the result type of parse_date. -/
structure Date where
  year : Int
  month : Int
  day : Int
deriving DecidableEq

/-- Gregorian leap-year rule (Python datetime semantics). -/
def isLeap (y : Int) : Bool := y % 4 == 0 && (y % 100 != 0 || y % 400 == 0)

/-- Number of days in a month of the proleptic Gregorian calendar. -/
def daysInMonth (y m : Int) : Int :=
  if m = 2 then (if isLeap y then 29 else 28)
  else if m = 4 ∨ m = 6 ∨ m = 9 ∨ m = 11 then 30 else 31

/-- Days since 1970-01-01 of a proleptic Gregorian date (Hinnant's civil
calendar algorithm, floor division throughout). -/
def daysFromCivil (y m d : Int) : Int :=
  let y := if m ≤ 2 then y - 1 else y
  let era := y.fdiv 400
  let yoe := y - era * 400
  let mp := if 2 < m then m - 3 else m + 9
  let doy := (153 * mp + 2).fdiv 5 + d - 1
  let doe := yoe * 365 + yoe.fdiv 4 - yoe.fdiv 100 + doy
  era * 146097 + doe - 719468

/-- Inverse of daysFromCivil: the proleptic Gregorian date a given number of
days after 1970-01-01. -/
def civilFromDays (z : Int) : Date :=
  let z := z + 719468
  let era := z.fdiv 146097
  let doe := z - era * 146097
  let yoe := (doe - doe.fdiv 1460 + doe.fdiv 36524 - doe.fdiv 146096).fdiv 365
  let y := yoe + era * 400
  let doy := doe - (365 * yoe + yoe.fdiv 4 - yoe.fdiv 100)
  let mp := (5 * doy + 2).fdiv 153
  let d := doy - (153 * mp + 2).fdiv 5 + 1
  let m := mp + (if mp < 10 then 3 else -9)
  ⟨if m ≤ 2 then y + 1 else y, m, d⟩

/-- Day number of the spreadsheet serial-date epoch 1899-12-30 used by
parse_date. -/
def epochOrd : Int := daysFromCivil 1899 12 30

/-- Day number of datetime.min (year 1), the lower bound of Python's
representable datetimes. -/
def minOrd : Int := daysFromCivil 1 1 1

/-- Day number of datetime.max's date (9999-12-31), the upper bound of
Python's representable datetimes. -/
def maxOrd : Int := daysFromCivil 9999 12 31

/-- The anchored regex matching an optional minus sign, digits, and an
optional dot-and-digits fraction, used by parse_date to recognise a
spreadsheet serial day count. -/
def isSerialPat (cs : List Char) : Bool :=
  let cs' := match cs with | '-' :: r => r | r => r
  let (ip, r) := cs'.span (·.isDigit)
  (!ip.isEmpty) &&
    (r.isEmpty ||
      (match r with
       | '.' :: r2 =>
         let (fp, r3) := r2.span (·.isDigit)
         (!fp.isEmpty) && r3.isEmpty
       | _ => false))

/-- Construction check of datetime(y, m, d): Python raises ValueError unless
the year is within MINYEAR..MAXYEAR and the day fits its month. -/
def mkDate? (y m d : Int) : Option Date :=
  if 1 ≤ y ∧ y ≤ 9999 ∧ 1 ≤ m ∧ m ≤ 12 ∧ 1 ≤ d ∧ d ≤ daysInMonth y m then
    some ⟨y, m, d⟩
  else none

/-- strptime directive Y: exactly four decimal digits. -/
def parseY4 : List Char → Option (Int × List Char)
  | a :: b :: c :: d :: r =>
    if a.isDigit && b.isDigit && c.isDigit && d.isDigit then
      some (((digitsVal [a, b, c, d] : Nat) : Int), r)
    else none
  | _ => none

/-- strptime month/day directives: the maximal digit run must have length one
or two and value within the closed interval given by the directive's regex
alternation. -/
def parseNum2 (lo hi : Nat) (cs : List Char) : Option (Int × List Char) :=
  let (ds, r) := cs.span (·.isDigit)
  if (ds.length = 1 ∨ ds.length = 2) ∧ lo ≤ digitsVal ds ∧ digitsVal ds ≤ hi then
    some (((digitsVal ds : Nat) : Int), r)
  else none

/-- Match one literal character of a strptime format string. -/
def parseLit (c : Char) : List Char → Option (List Char)
  | x :: r => if x = c then some r else none
  | [] => none

/-- strptime with format Y-m-d followed by datetime construction. -/
def fmtYmd (cs : List Char) : Option Date := do
  let (y, r) ← parseY4 cs
  let r ← parseLit '-' r
  let (m, r) ← parseNum2 1 12 r
  let r ← parseLit '-' r
  let (d, r) ← parseNum2 1 31 r
  if r = [] then mkDate? y m d else none

/-- strptime with format m/d/Y followed by datetime construction. -/
def fmtMdy (cs : List Char) : Option Date := do
  let (m, r) ← parseNum2 1 12 cs
  let r ← parseLit '/' r
  let (d, r) ← parseNum2 1 31 r
  let r ← parseLit '/' r
  let (y, r) ← parseY4 r
  if r = [] then mkDate? y m d else none

/-- strptime with format d/m/Y followed by datetime construction. -/
def fmtDmy (cs : List Char) : Option Date := do
  let (d, r) ← parseNum2 1 31 cs
  let r ← parseLit '/' r
  let (m, r) ← parseNum2 1 12 r
  let r ← parseLit '/' r
  let (y, r) ← parseY4 r
  if r = [] then mkDate? y m d else none

/-- strptime with format Y/m/d followed by datetime construction. -/
def fmtYmdSlash (cs : List Char) : Option Date := do
  let (y, r) ← parseY4 cs
  let r ← parseLit '/' r
  let (m, r) ← parseNum2 1 12 r
  let r ← parseLit '/' r
  let (d, r) ← parseNum2 1 31 r
  if r = [] then mkDate? y m d else none

/-- The four fixed formats of parse_date attempted in source order; the first
successful parse wins. -/
def strptimeAny (cs : List Char) : Option Date :=
  match fmtYmd cs with
  | some d => some d
  | none =>
    match fmtMdy cs with
    | some d => some d
    | none =>
      match fmtDmy cs with
      | some d => some d
      | none => fmtYmdSlash cs

/-- Exactly two decimal digits. -/
def parse2exact : List Char → Option (Int × List Char)
  | a :: b :: r =>
    if a.isDigit && b.isDigit then some (((digitsVal [a, b] : Nat) : Int), r) else none
  | _ => none

/-- Optional seconds-and-fraction tail of an ISO time. -/
def isoSecFrac : List Char → Bool
  | [] => true
  | ':' :: r =>
    (match parse2exact r with
     | some (s, r2) =>
       decide (s ≤ 59) &&
         (r2.isEmpty ||
           (match r2 with
            | '.' :: r3 =>
              let (ds, r4) := r3.span (·.isDigit)
              (!ds.isEmpty) && decide (ds.length ≤ 6) && r4.isEmpty
            | _ => false))
     | none => false)
  | _ => false

/-- An ISO time of day HH:MM with optional seconds and fraction. -/
def isoTime (cs : List Char) : Bool :=
  match parse2exact cs with
  | some (h, r) =>
    decide (h ≤ 23) &&
      (match r with
       | ':' :: r2 =>
         (match parse2exact r2 with
          | some (mi, r3) => decide (mi ≤ 59) && isoSecFrac r3
          | none => false)
       | _ => false)
  | none => false

/-- Modelled subset of datetime.fromisoformat: a Y-m-d date with two-digit
month and day, optionally followed by a T or space separator and a time of
day.  Timezone offsets and the compressed basic formats accepted by newer
CPython are not modelled; nothing in the pipeline produces them. -/
def isoDate? (s : String) : Option Date :=
  match parseY4 s.data with
  | none => none
  | some (y, r) =>
    match parseLit '-' r with
    | none => none
    | some r =>
      match parse2exact r with
      | none => none
      | some (m, r) =>
        match parseLit '-' r with
        | none => none
        | some r =>
          match parse2exact r with
          | none => none
          | some (d, r) =>
            match r with
            | [] => mkDate? y m d
            | t :: rt => if (t = 'T' ∨ t = ' ') ∧ isoTime rt then mkDate? y m d else none

/-- parse_date from scripts/build_tables.py.  A serial numeric string is a
day count from the 1899-12-30 epoch; the result .error models the
OverflowError that CPython raises (uncaught: the source only catches
ValueError) when the shifted datetime leaves the representable range
year 1..9999.  Otherwise the four fixed formats are tried in order, then the
generic ISO parse; all their failures are caught, yielding none. -/
def parse_date (v : Option String) : Except Unit (Option Date) :=
  match v with
  | none => .ok none
  | some s =>
    let cleaned := pyStrip s
    if cleaned = "" then .ok none
    else if isSerialPat cleaned.data then
      let serial := (pyFloat? cleaned).getD 0
      let ord := epochOrd + serial.floor
      if minOrd ≤ ord ∧ ord ≤ maxOrd then .ok (some (civilFromDays ord))
      else .error ()
    else
      match strptimeAny cleaned.data with
      | some d => .ok (some d)
      | none => .ok (isoDate? cleaned)

/-- The exact condition under which parse_date aborts: the trimmed text
matches the serial pattern and the shifted day count leaves Python's
representable datetime range. -/
def serialOverflows (s : String) : Prop :=
  isSerialPat (pyStrip s).data = true ∧
    (epochOrd + ((pyFloat? (pyStrip s)).getD 0).floor < minOrd ∨
     maxOrd < epochOrd + ((pyFloat? (pyStrip s)).getD 0).floor)

/-- Aborting on a serial value is decidable; used to check concrete inputs
against the overflow condition. -/
instance (s : String) : Decidable (serialOverflows s) := by
  unfold serialOverflows
  exact inferInstance

/-- One c element of worksheet XML: the r and t attributes, the v child
element (present or not, with possibly absent text), and the concatenated
text runs of the is child element when it is present. -/
structure Cell where
  r : Option String
  t : Option String
  v : Option (Option String)
  isE : Option String
deriving DecidableEq

/-- col_to_idx from scripts/build_tables.py: base-26 column letters to a
0-based column index. -/
def col_to_idx (col : String) : Int :=
  (col.data.foldl (fun idx ch => idx * 26 + ((ch.toNat : Int) - 64)) 0) - 1

/-- Leading run of uppercase A-Z letters of a cell reference; the source
takes re.match of one-or-more uppercase letters and dereferences the match
object, so an empty run is an uncaught AttributeError. -/
def leadUpper (s : String) : List Char :=
  s.data.takeWhile (fun c => 'A' ≤ c ∧ c ≤ 'Z')

/-- Python list subscription with an int index: nonnegative indexes count
from the front, negative indexes from the back, anything else raises
IndexError (modelled as .error). -/
def pyIndex {α : Type} (l : List α) (i : Int) : Except Unit α :=
  let j := if i < 0 then i + l.length else i
  if h : 0 ≤ j ∧ j < l.length then
    .ok (l.get ⟨j.toNat, by omega⟩)
  else .error ()

/-- Resolution of one cell's value per its type attribute (lines 51-63 of
the source): shared-string cells convert the v text with int() and subscript
the shared-string table (both failures abort), inline strings take the
concatenated text runs, and any other type takes the raw v text. -/
def resolveCell (ss : List String) (c : Cell) : Except Unit (Option String) :=
  if c.t = some "s" then
    match c.v with
    | some (some txt) =>
      match pyInt? txt with
      | none => .error ()
      | some i =>
        match pyIndex ss i with
        | .ok sv => .ok (some sv)
        | .error e => .error e
    | _ => .ok none
  else if c.t = some "inlineStr" then .ok c.isE
  else
    .ok (match c.v with
         | some txt => txt
         | none => none)

/-- The per-row cell loop of parse_sheet: skip cells with a falsy reference,
fail on a reference without leading uppercase letters, track the maximum
column index, and assign the resolved value into the sparse row dict. -/
def procCells (ss : List String) :
    List Cell → List (Int × Option String) → Int → Except Unit (List (Int × Option String) × Int)
  | [], rv, mc => .ok (rv, mc)
  | c :: cs, rv, mc =>
    match c.r with
    | none => procCells ss cs rv mc
    | some ref =>
      if ref = "" then procCells ss cs rv mc
      else
        let letters := leadUpper ref
        if letters = [] then .error ()
        else
          let idx := col_to_idx (String.mk letters)
          let mc' := max mc idx
          match resolveCell ss c with
          | .error e => .error e
          | .ok value => procCells ss cs (dictSet rv idx value) mc'

/-- Materialise the dense row 0..maxCol from the sparse row dict. -/
def densify (rv : List (Int × Option String)) (mc : Int) : List (Option String) :=
  (List.range (mc + 1).toNat).map (fun i => (alookup rv (i : Int)).getD none)

/-- parse_sheet from scripts/build_tables.py, after the XML tree has been
decoded into the Cell representation: produce one dense row per row element
that contains at least one referenced cell. -/
def parse_sheet (ss : List String) : List (List Cell) → Except Unit (List (List (Option String)))
  | [] => .ok []
  | row :: rest =>
    match procCells ss row [] (-1) with
    | .error e => .error e
    | .ok (rv, mc) =>
      match parse_sheet ss rest with
      | .error e => .error e
      | .ok rs => .ok (if rv = [] then rs else densify rv mc :: rs)

/-- normalize_header from scripts/build_tables.py: falsy values become the
empty string, otherwise whitespace runs collapse to single spaces and the
ends are trimmed. -/
def normalize_header (v : Option String) : String :=
  match v with
  | none => ""
  | some s => String.intercalate " " ((wordsOf s.data).map String.mk)

/-- A record: a header-keyed Python dict over optional cell values. -/
abbrev Record := List (String × Option String)

/-- Python row.get(key): none both when the key is absent and when the
stored value is None. -/
def rget (r : Record) (k : String) : Option String :=
  match alookup r k with
  | some v => v
  | none => none

/-- The inner loop of rows_to_dicts: walk the headers with their positions,
skip blank headers, and assign the cell at each position (None past the end
of the row) into the record dict. -/
def buildRecAux (row : List (Option String)) : List String → Nat → Record → Record
  | [], _, acc => acc
  | h :: t, i, acc =>
    buildRecAux row t (i + 1)
      (if h = "" then acc else dictSet acc h ((row.get? i).getD none))

/-- Record built from one data row against a normalized header list. -/
def buildRecord (headers : List String) (row : List (Option String)) : Record :=
  buildRecAux row headers 0 []

/-- rows_to_dicts from scripts/build_tables.py.  The source subscripts
rows at index zero before any emptiness check, so an empty grid is an
uncaught IndexError, modelled as .error. -/
def rows_to_dicts : List (List (Option String)) → Except Unit (List Record)
  | [] => .error ()
  | r0 :: rest =>
    let headers := r0.map normalize_header
    .ok (rest.map (fun row => buildRecord headers row))

/-- ASCII lowering of a string, modelling str.lower on the identifiers this
pipeline classifies (the full Unicode case map is out of scope). -/
def lowerStr (s : String) : String := String.mk (s.data.map Char.toLower)

/-- Does pat occur as a contiguous run at the head of l. -/
def prefAt : List Char → List Char → Bool
  | [], _ => true
  | _ :: _, [] => false
  | a :: as, b :: bs => a == b && prefAt as bs

/-- Does pat occur as a contiguous run anywhere in l (Python in operator on
strings). -/
def substrB (pat : List Char) : List Char → Bool
  | [] => prefAt pat []
  | l@(_ :: t) => prefAt pat l || substrB pat t

/-- classify_customer from scripts/build_tables.py: a truthy name containing
the substring ethos case-insensitively is Internal, everything else is
External. -/
def classify_customer (name : String) : String :=
  if name ≠ "" ∧ substrB "ethos".data (lowerStr name).data then "Internal" else "External"

/-- Strip of a possibly absent value after the Python or-with-empty-string
idiom: row.get(k) or empty, then .strip(). -/
def stripGet (r : Record) (k : String) : String := pyStrip ((rget r k).getD "")

/-- Half-to-even rounding of a rational to an integer (Python round ties). -/
def roundHalfEven (q : Rat) : Int :=
  let f := q.floor
  let r := q - (f : Rat)
  if r < 1 / 2 then f else if 1 / 2 < r then f + 1 else (if f % 2 = 0 then f else f + 1)

/-- Python round(x, 2) on the exact-rational model of a float. -/
def round2 (q : Rat) : Rat := ((roundHalfEven (q * 100) : Int) : Rat) / 100

/-- Count and remove the factors p of n (fuel-bounded structural recursion,
called with fuel at least n). -/
def countFactor : Nat → Nat → Nat → Nat × Nat
  | 0, _, n => (0, n)
  | fuel + 1, p, n =>
    if 2 ≤ p ∧ 1 < n ∧ n % p = 0 then
      let (c, r) := countFactor fuel p (n / p)
      (c + 1, r)
    else (0, n)

/-- Smallest k with den dividing 10 to the k, when den has only the prime
factors 2 and 5; none otherwise. -/
def decExp (den : Nat) : Option Nat :=
  let (a, r) := countFactor den 2 den
  let (b, r2) := countFactor r 5 r
  if r2 = 1 then some (max a b) else none

/-- Drop trailing zero characters. -/
def dropTrailZeros (s : List Char) : List Char :=
  (s.reverse.dropWhile (· == '0')).reverse

/-- Decimal rendering of the rationals this pipeline writes, matching str()
of the corresponding Python float for values with an exact short decimal
form (every written value is either a raw decimal sum or rounded to two
places); the slash fallback is unreachable for pipeline outputs. -/
def ratRepr (q : Rat) : String :=
  match decExp q.den with
  | none => Int.repr q.num ++ "/" ++ Nat.repr q.den
  | some k =>
    if k = 0 then Int.repr q.num ++ ".0"
    else
      let m := 10 ^ k / q.den
      let scaled := q.num.natAbs * m
      let ipart := scaled / 10 ^ k
      let fstr := Nat.repr (scaled % 10 ^ k)
      let pad := String.mk (List.replicate (k - fstr.length) '0') ++ fstr
      let ftrim := String.mk (dropTrailZeros pad.data)
      let ftrim := if ftrim = "" then "0" else ftrim
      (if q.num < 0 then "-" else "") ++ Nat.repr ipart ++ "." ++ ftrim

/-- A CSV output field: a string, a float, or an int, as handed to
csv.writer. -/
inductive Field where
  | str : String → Field
  | num : Rat → Field
  | int : Int → Field
deriving DecidableEq

/-- Does csv.writer's minimal quoting need to quote this text. -/
def needsQuote (s : String) : Bool :=
  s.data.any (fun c => c = ',' || c = '"' || c = '\n' || c = '\r')

/-- Doubling of embedded quote characters inside a quoted CSV field. -/
def doubleQuotes (s : String) : String :=
  String.mk (s.data.foldr (fun c acc => if c = '"' then '"' :: '"' :: acc else c :: acc) [])

/-- Rendering of one field by csv.writer with minimal quoting. -/
def csvField : Field → String
  | .str s => if needsQuote s then "\"" ++ doubleQuotes s ++ "\"" else s
  | .num q => ratRepr q
  | .int n => Int.repr n

/-- One CSV line without its terminator. -/
def csvRow (fs : List Field) : String := String.intercalate "," (fs.map csvField)

/-- write_csv from scripts/build_tables.py as the text it writes: the header
row then each data row, every row followed by a single newline terminator,
and nothing after the final data row's terminator. -/
def write_csv (headers : List String) (rows : List (List Field)) : String :=
  String.join (((headers.map Field.str) :: rows).map (fun r => csvRow r ++ "\n"))

/-- Insert x into a le-sorted list keeping it sorted. -/
def insSorted {α : Type} (le : α → α → Bool) (x : α) : List α → List α
  | [] => [x]
  | y :: t => if le x y then x :: y :: t else y :: insSorted le x t

/-- Ascending sort by a boolean comparison; models Python sorted() (keys of
the dicts being sorted are unique, so stability is immaterial). -/
def isortBy {α : Type} (le : α → α → Bool) : List α → List α
  | [] => []
  | x :: t => insSorted le x (isortBy le t)

/-- Lexicographic strict comparison of character lists by code point,
Python's order on strings. -/
def strLtB : List Char → List Char → Bool
  | [], [] => false
  | [], _ :: _ => true
  | _ :: _, [] => false
  | a :: as, b :: bs =>
    if a.toNat < b.toNat then true
    else if b.toNat < a.toNat then false
    else strLtB as bs

/-- Python strict less-than on strings. -/
def strLt (a b : String) : Bool := strLtB a.data b.data

/-- Python less-or-equal on strings. -/
def strLe (a b : String) : Bool := strLt a b || a == b

/-- Python strict less-than on ints as a boolean. -/
def intLt (a b : Int) : Bool := decide (a < b)

/-- Lexicographic comparison of pairs: strictly smaller first component, or
equal first components with second components in order (Python tuple
order). -/
def lexLe2 {α β : Type} [DecidableEq α] (lt1 : α → α → Bool) (le2 : β → β → Bool)
    (a b : α × β) : Bool :=
  lt1 a.1 b.1 || (a.1 == b.1 && le2 a.2 b.2)

/-- Python order on (site, part) and (site, customer) key tuples. -/
def pairLe : String × String → String × String → Bool := lexLe2 strLt strLe

/-- Python order on (site, year, part) key tuples. -/
def tripleLe : String × Int × String → String × Int × String → Bool :=
  lexLe2 strLt (lexLe2 intLt strLe)

/-- Order on dict items by their key; Python's sorted on dict.items() never
reaches the value component because keys are unique. -/
def entryLe {K V : Type} (le : K → K → Bool) (a b : K × V) : Bool := le a.1 b.1

/-- A sales record kept by the year filter, carrying the parsed year and the
coerced revenue that the source stashes on the row dict. -/
structure FRow where
  row : Record
  year : Int
  rev : Rat
deriving DecidableEq

/-- A working-set row after the allocation pass, with its allocated cost. -/
structure ARow where
  row : Record
  year : Int
  rev : Rat
  costAlloc : Rat
deriving DecidableEq

/-- Trimmed sales order number of a record (empty-or-absent collapses to the
empty string). -/
def orderNumOf (r : Record) : String := stripGet r "Sales Order Number"

/-- The cost coercion of one sales row: row.get of the cost column with the
or-zero fallback, fed to to_float (an absent or empty value therefore
coerces to zero through the numeric branch). -/
def costValueOf (r : Record) : Rat :=
  to_float
    (match rget r "(As Sold Cost) $" with
     | none => .num 0
     | some s => if s = "" then .num 0 else .str s)

/-- One iteration of the year filter (lines 184-197 of the source): parse
the order-creation date, drop the row when the year is absent or outside
2019..2025, otherwise keep it with its parsed year and coerced revenue.
A date-parse abort propagates. -/
def keepRowE (r : Record) : Except Unit (Option FRow) :=
  match parse_date (rget r "Order Creation Date") with
  | .error e => .error e
  | .ok none => .ok none
  | .ok (some d) =>
    if d.year < 2019 ∨ 2025 < d.year then .ok none
    else .ok (some ⟨r, d.year, toFloatOpt (rget r "Revenue (£££)")⟩)

/-- The year-filtered working set, in input order. -/
def salesFilteredE : List Record → Except Unit (List FRow)
  | [] => .ok []
  | r :: rs =>
    match keepRowE r with
    | .error e => .error e
    | .ok x =>
      match salesFilteredE rs with
      | .error e => .error e
      | .ok rest =>
        .ok (match x with
             | none => rest
             | some fr => fr :: rest)

/-- One defaultdict revenue accumulation step of the first pass, restricted
to rows with a truthy order number. -/
def revStep (m : List (String × Rat)) (fr : FRow) : List (String × Rat) :=
  let o := orderNumOf fr.row
  if o = "" then m else updD m o (· + fr.rev) 0

/-- Per-order total revenue over the working set. -/
def orderRevenueM (frs : List FRow) : List (String × Rat) :=
  frs.foldl revStep []

/-- One cost-recording step of the first pass: the first nonzero coerced
cost for each truthy order number wins, zero costs never write. -/
def costStep (m : List (String × Rat)) (fr : FRow) : List (String × Rat) :=
  let o := orderNumOf fr.row
  if o = "" then m
  else
    let c := costValueOf fr.row
    if c ≠ 0 ∧ alookup m o = none then m ++ [(o, c)] else m

/-- Per-order recorded cost over the working set. -/
def orderCostM (frs : List FRow) : List (String × Rat) :=
  frs.foldl costStep []

/-- The second pass (lines 199-207 of the source): allocate each order's
recorded cost across its rows in proportion to revenue, zero when the
order's total revenue is not strictly positive. -/
def allocRows (frs : List FRow) : List ARow :=
  let orv := orderRevenueM frs
  let ocm := orderCostM frs
  frs.map
    (fun fr =>
      let o := orderNumOf fr.row
      let total := (alookup orv o).getD 0
      let cost := (alookup ocm o).getD 0
      ⟨fr.row, fr.year, fr.rev, if 0 < total then cost * (fr.rev / total) else 0⟩)

/-- Inventory totals by trimmed (site, part) key, skipping rows with an
empty component (lines 162-168 of the source). -/
def inventoryTotals (inventory : List Record) : List ((String × String) × Rat) :=
  inventory.foldl
    (fun m row =>
      let site := stripGet row "Site"
      let part := stripGet row "Part No"
      let qty := toFloatOpt (rget row "Onhand Qty")
      if site ≠ "" ∧ part ≠ "" then updD m (site, part) (· + qty) 0 else m)
    []

/-- Accumulated state of one (site, part) group of the part-level pareto. -/
structure PartGroup where
  revenue : Rat
  units : Rat
  customers : List String
  internalRevenue : Rat
  externalRevenue : Rat
  internalUnits : Rat
  externalUnits : Rat
  internalCustomers : List String
  externalCustomers : List String
  costAlloc : Rat
deriving DecidableEq

/-- The freshly setdefault-ed part group. -/
def emptyPartGroup : PartGroup := ⟨0, 0, [], 0, 0, 0, 0, [], [], 0⟩

/-- Python set.add on the insertion-ordered list model of a set. -/
def addNew (l : List String) (x : String) : List String :=
  if x ∈ l then l else l ++ [x]

/-- Fold one working-set row into its part group (lines 231-246 of the
source). -/
def updPartGroup (ar : ARow) (qty : Rat) (cname : String) (g : PartGroup) : PartGroup :=
  let internal := classify_customer cname = "Internal"
  { revenue := g.revenue + ar.rev
    units := g.units + qty
    customers := addNew g.customers cname
    internalRevenue := if internal then g.internalRevenue + ar.rev else g.internalRevenue
    externalRevenue := if internal then g.externalRevenue else g.externalRevenue + ar.rev
    internalUnits := if internal then g.internalUnits + qty else g.internalUnits
    externalUnits := if internal then g.externalUnits else g.externalUnits + qty
    internalCustomers := if internal then addNew g.internalCustomers cname else g.internalCustomers
    externalCustomers := if internal then g.externalCustomers else addNew g.externalCustomers cname
    costAlloc := g.costAlloc + ar.costAlloc }

/-- The trimmed (site, part number) key of a working-set row, none when a
component is empty and the row is skipped by the part-level grouping. -/
def partKeyOf (ar : ARow) : Option (String × String) :=
  let site := stripGet ar.row "Site"
  let part := stripGet ar.row "Part Number"
  if site = "" ∨ part = "" then none else some (site, part)

/-- One part-level grouping step. -/
def partStep (m : List ((String × String) × PartGroup)) (ar : ARow) :
    List ((String × String) × PartGroup) :=
  match partKeyOf ar with
  | none => m
  | some key =>
    let qty := toFloatOpt (rget ar.row "Qty Shipped")
    let cname := stripGet ar.row "Customer Name"
    updD m key (updPartGroup ar qty cname) emptyPartGroup

/-- Part-level grouping by trimmed (site, part number), skipping rows with
an empty component. -/
def partGroups (ars : List ARow) : List ((String × String) × PartGroup) :=
  ars.foldl partStep []

/-- One emitted data row of part_level_pareto.csv before CSV encoding. -/
structure PartRow where
  site : String
  part : String
  revenue : Rat
  units : Rat
  customerCount : Nat
  internalRevenue : Rat
  externalRevenue : Rat
  internalUnits : Rat
  externalUnits : Rat
  internalCustomerCount : Nat
  externalCustomerCount : Nat
  onhand : Rat
  costAlloc : Rat
deriving DecidableEq

/-- Emission of one sorted part group: two-decimal rounding, distinct
counts, and the left-joined on-hand quantity with default zero. -/
def mkPartRow (invT : List ((String × String) × Rat)) (e : (String × String) × PartGroup) :
    PartRow :=
  let g := e.2
  { site := e.1.1
    part := e.1.2
    revenue := round2 g.revenue
    units := round2 g.units
    customerCount := g.customers.length
    internalRevenue := round2 g.internalRevenue
    externalRevenue := round2 g.externalRevenue
    internalUnits := round2 g.internalUnits
    externalUnits := round2 g.externalUnits
    internalCustomerCount := g.internalCustomers.length
    externalCustomerCount := g.externalCustomers.length
    onhand := round2 ((alookup invT e.1).getD 0)
    costAlloc := round2 g.costAlloc }

/-- The sorted data rows of part_level_pareto.csv. -/
def partRowsOf (invT : List ((String × String) × Rat)) (ars : List ARow) : List PartRow :=
  (isortBy (entryLe pairLe) (partGroups ars)).map (mkPartRow invT)

/-- Accumulated state of one (site, customer) group. -/
structure CustGroup where
  revenue : Rat
  units : Rat
  opportunities : List String
  costAlloc : Rat
deriving DecidableEq

/-- Fold one working-set row into its customer group (lines 309-315). -/
def updCustGroup (ar : ARow) (g : CustGroup) : CustGroup :=
  let opp := stripGet ar.row "Saleforce Oppurtunity"
  { revenue := g.revenue + ar.rev
    units := g.units + toFloatOpt (rget ar.row "Qty Shipped")
    opportunities := if opp ≠ "" then addNew g.opportunities opp else g.opportunities
    costAlloc := g.costAlloc + ar.costAlloc }

/-- Customer-level grouping by trimmed (site, customer name). -/
def custGroups (ars : List ARow) : List ((String × String) × CustGroup) :=
  ars.foldl
    (fun m ar =>
      let site := stripGet ar.row "Site"
      let cname := stripGet ar.row "Customer Name"
      if site = "" ∨ cname = "" then m
      else updD m (site, cname) (updCustGroup ar) ⟨0, 0, [], 0⟩)
    []

/-- One emitted data row of customer_level_pareto.csv. -/
structure CustRow where
  site : String
  name : String
  ctype : String
  revenue : Rat
  units : Rat
  oppCount : Nat
  costAlloc : Rat
deriving DecidableEq

/-- Emission of one sorted customer group. -/
def mkCustRow (e : (String × String) × CustGroup) : CustRow :=
  { site := e.1.1
    name := e.1.2
    ctype := classify_customer e.1.2
    revenue := round2 e.2.revenue
    units := round2 e.2.units
    oppCount := e.2.opportunities.length
    costAlloc := round2 e.2.costAlloc }

/-- The sorted data rows of customer_level_pareto.csv. -/
def custRowsOf (ars : List ARow) : List CustRow :=
  (isortBy (entryLe pairLe) (custGroups ars)).map mkCustRow

/-- Accumulated distinct-customer sets of one (site, year, part) group. -/
structure CountGroup where
  customers : List String
  internalCustomers : List String
  externalCustomers : List String
deriving DecidableEq

/-- Customer-count grouping by (site, year, part), skipping rows with an
empty site, part or customer or a falsy (zero) year (lines 351-372). -/
def countGroups (ars : List ARow) : List ((String × Int × String) × CountGroup) :=
  ars.foldl
    (fun m ar =>
      let site := stripGet ar.row "Site"
      let part := stripGet ar.row "Part Number"
      let cname := stripGet ar.row "Customer Name"
      if site = "" ∨ part = "" ∨ ar.year = 0 ∨ cname = "" then m
      else
        updD m (site, ar.year, part)
          (fun g =>
            let internal := classify_customer cname = "Internal"
            { customers := addNew g.customers cname
              internalCustomers :=
                if internal then addNew g.internalCustomers cname else g.internalCustomers
              externalCustomers :=
                if internal then g.externalCustomers else addNew g.externalCustomers cname })
          ⟨[], [], []⟩)
    []

/-- One emitted data row of customer_counts_by_site_year_part.csv. -/
structure CountRow where
  site : String
  year : Int
  part : String
  customerCount : Nat
  internalCustomerCount : Nat
  externalCustomerCount : Nat
deriving DecidableEq

/-- Emission of one sorted count group. -/
def mkCountRow (e : (String × Int × String) × CountGroup) : CountRow :=
  { site := e.1.1
    year := e.1.2.1
    part := e.1.2.2
    customerCount := e.2.customers.length
    internalCustomerCount := e.2.internalCustomers.length
    externalCustomerCount := e.2.externalCustomers.length }

/-- The sorted data rows of customer_counts_by_site_year_part.csv. -/
def countRowsOf (ars : List ARow) : List CountRow :=
  (isortBy (entryLe tripleLe) (countGroups ars)).map mkCountRow

/-- The sorted data rows of Inventory_Normalized.csv. -/
def invRowsOf (inventory : List Record) : List ((String × String) × Rat) :=
  isortBy (entryLe pairLe) (inventoryTotals inventory)

/-- CSV fields of one inventory data row. -/
def invFields (e : (String × String) × Rat) : List Field :=
  [.str e.1.1, .str e.1.2, .num e.2]

/-- CSV fields of one part-level data row, with the two empty placeholder
columns. -/
def partFields (p : PartRow) : List Field :=
  [.str p.site, .str p.part, .num p.revenue, .num p.units, .int p.customerCount,
   .num p.internalRevenue, .num p.externalRevenue, .num p.internalUnits,
   .num p.externalUnits, .int p.internalCustomerCount, .int p.externalCustomerCount,
   .num p.onhand, .num p.costAlloc, .str "", .str ""]

/-- CSV fields of one customer-level data row. -/
def custFields (c : CustRow) : List Field :=
  [.str c.site, .str c.name, .str c.ctype, .num c.revenue, .num c.units,
   .int c.oppCount, .num c.costAlloc, .str "", .str ""]

/-- CSV fields of one customer-count data row. -/
def countFields (c : CountRow) : List Field :=
  [.str c.site, .int c.year, .str c.part, .int c.customerCount,
   .int c.internalCustomerCount, .int c.externalCustomerCount]

/-- Fixed header row of Inventory_Normalized.csv. -/
def invHeaders : List String := ["Site", "Part No", "Onhand Qty"]

/-- Fixed header row of part_level_pareto.csv. -/
def partHeaders : List String :=
  ["Site", "Part Number", "Revenue_GBP", "Units", "Customer_Count",
   "Internal_Revenue_GBP", "External_Revenue_GBP", "Internal_Units", "External_Units",
   "Internal_Customer_Count", "External_Customer_Count", "Onhand_Qty",
   "Cost_Allocated_USD", "Revenue_USD", "Margin_USD"]

/-- Fixed header row of customer_level_pareto.csv. -/
def custHeaders : List String :=
  ["Site", "Customer Name", "Customer_Type", "Revenue_GBP", "Units",
   "Opportunity_Count", "Cost_Allocated_USD", "Revenue_USD", "Margin_USD"]

/-- Fixed header row of customer_counts_by_site_year_part.csv. -/
def countHeaders : List String :=
  ["Site", "Year", "Part Number", "Customer_Count",
   "Internal_Customer_Count", "External_Customer_Count"]

/-- The four report texts one run writes. -/
structure Outputs where
  inventoryCsv : String
  partCsv : String
  customerCsv : String
  countsCsv : String
deriving DecidableEq

/-- The pipeline from projected records to the four report texts: main from
scripts/build_tables.py after rows_to_dicts, with the only abort point being
a date-parse overflow inside the year filter. -/
def pipelineRecs (sales inventory : List Record) : Except Unit Outputs :=
  match salesFilteredE sales with
  | .error e => .error e
  | .ok frs =>
    let invT := inventoryTotals inventory
    let ars := allocRows frs
    .ok
      { inventoryCsv := write_csv invHeaders ((invRowsOf inventory).map invFields)
        partCsv := write_csv partHeaders ((partRowsOf invT ars).map partFields)
        customerCsv := write_csv custHeaders ((custRowsOf ars).map custFields)
        countsCsv := write_csv countHeaders ((countRowsOf ars).map countFields) }

/-- The pipeline from decoded cell grids: record projection of both sheets
then the record pipeline. -/
def runPipelineGrids (salesRows invRows : List (List (Option String))) : Except Unit Outputs :=
  match rows_to_dicts salesRows with
  | .error e => .error e
  | .ok sales =>
    match rows_to_dicts invRows with
    | .error e => .error e
    | .ok inventory => pipelineRecs sales inventory

/-- The whole run from the decoded container: grid decoding of both
worksheets against the shared-string table, then the grid pipeline.  Any
decoding abort happens before any output text is produced. -/
def fullRun (ss : List String) (sheet1 sheet2 : List (List Cell)) : Except Unit Outputs :=
  match parse_sheet ss sheet1 with
  | .error e => .error e
  | .ok g1 =>
    match parse_sheet ss sheet2 with
    | .error e => .error e
    | .ok g2 => runPipelineGrids g1 g2

/-- Spec-side formulation of an order's total revenue: the sum of the
coerced revenues of the working-set rows carrying that order number. -/
def specOrderTotal (o : String) (frs : List FRow) : Rat :=
  ((frs.filter (fun fr => orderNumOf fr.row == o)).map FRow.rev).sum

/-- Spec-side formulation of the recorded order cost: the first nonzero
coerced cost among the working-set rows of that order, scanned in input
order. -/
def firstNonzeroCost (o : String) (frs : List FRow) : Option Rat :=
  ((frs.filter (fun fr => orderNumOf fr.row == o)).map (fun fr => costValueOf fr.row)).find?
    (fun c => c != 0)

/-- Concrete sales sheet of the end-to-end example: one header row and two
data rows on the same order, an internal and an external customer. -/
def exSalesGrid : List (List (Option String)) :=
  [[some "Site", some "Part Number", some "Sales Order Number", some "Order Creation Date",
    some "Revenue (£££)", some "Qty Shipped", some "Customer Name", some "(As Sold Cost) $",
    some "Saleforce Oppurtunity"],
   [some "S1", some "P1", some "SO1", some "2024-03-15", some "100", some "10",
    some "Ethos Operations", some "30", some "OPP-1"],
   [some "S1", some "P1", some "SO1", some "2024-03-16", some "50", some "5",
    some "Acme Ltd", some "30", none]]

/-- Concrete inventory sheet of the end-to-end example: one header row and
one data row for the same (site, part) key. -/
def exInvGrid : List (List (Option String)) :=
  [[some "Site", some "Part No", some "Onhand Qty"],
   [some "S1", some "P1", some "20"]]

/-- Two working-set rows of one order with revenues 60 and 40 and an order
cost of 10 on the first row. -/
def c1Frs : List FRow :=
  [⟨[("Sales Order Number", some "SO1"), ("(As Sold Cost) $", some "10")], 2024, 60⟩,
   ⟨[("Sales Order Number", some "SO1")], 2024, 40⟩]

/-- Two working-set rows of one order with zero revenue throughout and a
nonzero order cost. -/
def c1ZeroFrs : List FRow :=
  [⟨[("Sales Order Number", some "SO2"), ("(As Sold Cost) $", some "7")], 2024, 0⟩,
   ⟨[("Sales Order Number", some "SO2")], 2024, 0⟩]

/-- A sales record dated in 2018, outside the accepted year window. -/
def rec2018 : Record :=
  [("Order Creation Date", some "2018-06-01"), ("Site", some "S1"),
   ("Part Number", some "P1"), ("Sales Order Number", some "SO9"),
   ("Revenue (£££)", some "100"), ("Customer Name", some "Acme Ltd")]

/-- A sales record dated in 2026, outside the accepted year window. -/
def rec2026 : Record :=
  [("Order Creation Date", some "2026-01-02"), ("Site", some "S1"),
   ("Part Number", some "P1"), ("Sales Order Number", some "SO9"),
   ("Revenue (£££)", some "100"), ("Customer Name", some "Acme Ltd")]

/-- The four report texts of a run on empty inputs: each file holds exactly
its header line. -/
def headerOnlyOutputs : Outputs :=
  ⟨"Site,Part No,Onhand Qty\n",
   "Site,Part Number,Revenue_GBP,Units,Customer_Count,Internal_Revenue_GBP," ++
     "External_Revenue_GBP,Internal_Units,External_Units,Internal_Customer_Count," ++
     "External_Customer_Count,Onhand_Qty,Cost_Allocated_USD,Revenue_USD,Margin_USD\n",
   "Site,Customer Name,Customer_Type,Revenue_GBP,Units,Opportunity_Count," ++
     "Cost_Allocated_USD,Revenue_USD,Margin_USD\n",
   "Site,Year,Part Number,Customer_Count,Internal_Customer_Count,External_Customer_Count\n"⟩

theorem alookup_updD {K V : Type} [DecidableEq K] (m : List (K × V)) (k : K) (f : V → V)
    (d : V) (j : K) :
    alookup (updD m k f d) j =
      if k = j then some (f ((alookup m k).getD d)) else alookup m j := by
  induction m with
  | nil => by_cases h : k = j <;> simp [updD, alookup, h]
  | cons p t ih =>
    obtain ⟨k', v⟩ := p
    by_cases hkk : k' = k
    · subst hkk
      by_cases hj : k' = j <;> simp [updD, alookup, hj]
    · by_cases hj : k' = j
      · subst hj
        have hkj : ¬ k = k' := fun h => hkk h.symm
        simp [updD, alookup, hkk, hkj]
      · simp [updD, alookup, hkk, hj, ih]

theorem alookup_dictSet {K V : Type} [DecidableEq K] (m : List (K × V)) (k : K) (v : V)
    (j : K) :
    alookup (dictSet m k v) j = if k = j then some v else alookup m j := by
  simp [dictSet, alookup_updD]

theorem alookup_append_single {K V : Type} [DecidableEq K] (m : List (K × V)) (k : K)
    (v : V) (j : K) :
    alookup (m ++ [(k, v)]) j =
      (alookup m j).or (if k = j then some v else none) := by
  induction m with
  | nil => by_cases h : k = j <;> simp [alookup, h]
  | cons p t ih =>
    obtain ⟨k', v'⟩ := p
    by_cases hj : k' = j <;> simp [alookup, hj, ih]

theorem mem_updD {K V : Type} [DecidableEq K] (m : List (K × V)) (k₀ : K) (f : V → V)
    (d : V) (k : K) (g : V) (hm : (k, g) ∈ updD m k₀ f d) :
    (∃ g', (k, g') ∈ m) ∨ k = k₀ := by
  induction m with
  | nil =>
    simp [updD] at hm
    exact Or.inr hm.1
  | cons p t ih =>
    obtain ⟨k', v⟩ := p
    by_cases hkk : k' = k₀
    · subst hkk
      simp only [updD, if_pos rfl] at hm
      rcases List.mem_cons.mp hm with h | h
      · exact Or.inr ((Prod.mk.injEq _ _ _ _).mp h).1
      · exact Or.inl ⟨g, List.mem_cons_of_mem _ h⟩
    · simp only [updD, if_neg hkk] at hm
      rcases List.mem_cons.mp hm with h | h
      · obtain ⟨hk, hg⟩ := (Prod.mk.injEq _ _ _ _).mp h
        subst hk
        exact Or.inl ⟨v, List.mem_cons_self _ _⟩
      · rcases ih h with ⟨g', hg'⟩ | h2
        · exact Or.inl ⟨g', List.mem_cons_of_mem _ hg'⟩
        · exact Or.inr h2

theorem mem_insSorted {α : Type} (le : α → α → Bool) (a x : α) (l : List α) :
    x ∈ insSorted le a l ↔ x = a ∨ x ∈ l := by
  induction l with
  | nil => simp [insSorted]
  | cons y t ih =>
    by_cases h : le a y = true
    · simp only [insSorted, if_pos h]
      simp
    · simp only [insSorted, if_neg h, List.mem_cons, ih]
      tauto

theorem mem_isortBy {α : Type} (le : α → α → Bool) (x : α) (l : List α) :
    x ∈ isortBy le l ↔ x ∈ l := by
  induction l with
  | nil => simp [isortBy]
  | cons y t ih => simp [isortBy, mem_insSorted, ih]

theorem pairwise_insSorted {α : Type} (le : α → α → Bool)
    (htot : ∀ a b, le a b = true ∨ le b a = true)
    (htr : ∀ a b c, le a b = true → le b c = true → le a c = true)
    (x : α) (l : List α) (hl : l.Pairwise (fun a b => le a b = true)) :
    (insSorted le x l).Pairwise (fun a b => le a b = true) := by
  induction l with
  | nil => simp [insSorted]
  | cons y t ih =>
    rcases List.pairwise_cons.mp hl with ⟨hy, ht⟩
    by_cases h : le x y = true
    · simp only [insSorted, if_pos h]
      refine List.pairwise_cons.mpr ⟨?_, hl⟩
      intro z hz
      rcases List.mem_cons.mp hz with rfl | hz'
      · exact h
      · exact htr x y z h (hy z hz')
    · simp only [insSorted, if_neg h]
      refine List.pairwise_cons.mpr ⟨?_, ih ht⟩
      intro z hz
      rcases (mem_insSorted le x z t).mp hz with rfl | hz'
      · rcases htot z y with h1 | h1
        · exact absurd h1 h
        · exact h1
      · exact hy z hz'

theorem pairwise_isortBy {α : Type} (le : α → α → Bool)
    (htot : ∀ a b, le a b = true ∨ le b a = true)
    (htr : ∀ a b c, le a b = true → le b c = true → le a c = true)
    (l : List α) :
    (isortBy le l).Pairwise (fun a b => le a b = true) := by
  induction l with
  | nil => simp [isortBy]
  | cons y t ih => exact pairwise_insSorted le htot htr y (isortBy le t) ih

theorem char_toNat_inj {a b : Char} (h : a.toNat = b.toNat) : a = b :=
  Char.ext (UInt32.ext h)

theorem string_data_inj {a b : String} (h : a.data = b.data) : a = b := by
  cases a
  cases b
  exact congrArg String.mk h

theorem strLtB_trans : ∀ a b c : List Char, strLtB a b = true → strLtB b c = true →
    strLtB a c = true := by
  intro a
  induction a with
  | nil =>
    intro b c hab hbc
    cases b with
    | nil => simp [strLtB] at hab
    | cons y ys =>
      cases c with
      | nil => simp [strLtB] at hbc
      | cons z zs => simp [strLtB]
  | cons x xs ih =>
    intro b c hab hbc
    cases b with
    | nil => simp [strLtB] at hab
    | cons y ys =>
      cases c with
      | nil => simp [strLtB] at hbc
      | cons z zs =>
        simp only [strLtB] at hab hbc ⊢
        by_cases h1 : x.toNat < y.toNat
        · by_cases h2 : y.toNat < z.toNat
          · rw [if_pos (by omega)]
          · rw [if_neg h2] at hbc
            by_cases h3 : z.toNat < y.toNat
            · rw [if_pos h3] at hbc
              cases hbc
            · rw [if_pos (by omega)]
        · rw [if_neg h1] at hab
          by_cases h1' : y.toNat < x.toNat
          · rw [if_pos h1'] at hab
            cases hab
          · rw [if_neg h1'] at hab
            by_cases h2 : y.toNat < z.toNat
            · rw [if_pos (by omega)]
            · rw [if_neg h2] at hbc
              by_cases h3 : z.toNat < y.toNat
              · rw [if_pos h3] at hbc
                cases hbc
              · rw [if_neg h3] at hbc
                rw [if_neg (by omega), if_neg (by omega)]
                exact ih ys zs hab hbc

theorem strLtB_trichotomy : ∀ a b : List Char,
    strLtB a b = true ∨ a = b ∨ strLtB b a = true := by
  intro a
  induction a with
  | nil =>
    intro b
    cases b with
    | nil => exact Or.inr (Or.inl rfl)
    | cons y ys => exact Or.inl (by simp [strLtB])
  | cons x xs ih =>
    intro b
    cases b with
    | nil => exact Or.inr (Or.inr (by simp [strLtB]))
    | cons y ys =>
      rcases Nat.lt_trichotomy x.toNat y.toNat with h | h | h
      · exact Or.inl (by simp [strLtB, h])
      · have hxy : x = y := char_toNat_inj h
        subst hxy
        rcases ih ys with h2 | h2 | h2
        · exact Or.inl (by simp [strLtB, h2])
        · exact Or.inr (Or.inl (by rw [h2]))
        · exact Or.inr (Or.inr (by simp [strLtB, h2]))
      · exact Or.inr (Or.inr (by simp [strLtB, h]))

theorem strLt_trans (a b c : String) (h1 : strLt a b = true) (h2 : strLt b c = true) :
    strLt a c = true :=
  strLtB_trans a.data b.data c.data h1 h2

theorem strLt_trichotomy (a b : String) : strLt a b = true ∨ a = b ∨ strLt b a = true := by
  rcases strLtB_trichotomy a.data b.data with h | h | h
  · exact Or.inl h
  · exact Or.inr (Or.inl (string_data_inj h))
  · exact Or.inr (Or.inr h)

theorem strLe_iff (a b : String) : strLe a b = true ↔ (strLt a b = true ∨ a = b) := by
  simp [strLe, Bool.or_eq_true, beq_iff_eq]

theorem strLe_total (a b : String) : strLe a b = true ∨ strLe b a = true := by
  rcases strLt_trichotomy a b with h | h | h
  · exact Or.inl ((strLe_iff a b).mpr (Or.inl h))
  · exact Or.inl ((strLe_iff a b).mpr (Or.inr h))
  · exact Or.inr ((strLe_iff b a).mpr (Or.inl h))

theorem strLe_trans (a b c : String) (h1 : strLe a b = true) (h2 : strLe b c = true) :
    strLe a c = true := by
  rcases (strLe_iff a b).mp h1 with h1' | h1'
  · rcases (strLe_iff b c).mp h2 with h2' | h2'
    · exact (strLe_iff a c).mpr (Or.inl (strLt_trans a b c h1' h2'))
    · exact (strLe_iff a c).mpr (Or.inl (h2' ▸ h1'))
  · subst h1'
    exact h2

theorem intLt_trichotomy (a b : Int) : intLt a b = true ∨ a = b ∨ intLt b a = true := by
  simp only [intLt, decide_eq_true_eq]
  omega

theorem intLt_trans (a b c : Int) (h1 : intLt a b = true) (h2 : intLt b c = true) :
    intLt a c = true := by
  simp only [intLt, decide_eq_true_eq] at h1 h2 ⊢
  omega

theorem lexLe2_iff {α β : Type} [DecidableEq α] (lt1 : α → α → Bool) (le2 : β → β → Bool)
    (a b : α × β) :
    lexLe2 lt1 le2 a b = true ↔
      (lt1 a.1 b.1 = true ∨ (a.1 = b.1 ∧ le2 a.2 b.2 = true)) := by
  simp [lexLe2, Bool.or_eq_true, Bool.and_eq_true, beq_iff_eq]

theorem lexLe2_total {α β : Type} [DecidableEq α] (lt1 : α → α → Bool) (le2 : β → β → Bool)
    (htri : ∀ x y : α, lt1 x y = true ∨ x = y ∨ lt1 y x = true)
    (htot : ∀ x y : β, le2 x y = true ∨ le2 y x = true) (a b : α × β) :
    lexLe2 lt1 le2 a b = true ∨ lexLe2 lt1 le2 b a = true := by
  rcases htri a.1 b.1 with h | h | h
  · exact Or.inl ((lexLe2_iff _ _ _ _).mpr (Or.inl h))
  · rcases htot a.2 b.2 with h2 | h2
    · exact Or.inl ((lexLe2_iff _ _ _ _).mpr (Or.inr ⟨h, h2⟩))
    · exact Or.inr ((lexLe2_iff _ _ _ _).mpr (Or.inr ⟨h.symm, h2⟩))
  · exact Or.inr ((lexLe2_iff _ _ _ _).mpr (Or.inl h))

theorem lexLe2_trans {α β : Type} [DecidableEq α] (lt1 : α → α → Bool) (le2 : β → β → Bool)
    (hltr : ∀ x y z : α, lt1 x y = true → lt1 y z = true → lt1 x z = true)
    (htr : ∀ x y z : β, le2 x y = true → le2 y z = true → le2 x z = true) (a b c : α × β)
    (h1 : lexLe2 lt1 le2 a b = true) (h2 : lexLe2 lt1 le2 b c = true) :
    lexLe2 lt1 le2 a c = true := by
  rcases (lexLe2_iff _ _ _ _).mp h1 with h1' | ⟨he1, hl1⟩
  · rcases (lexLe2_iff _ _ _ _).mp h2 with h2' | ⟨he2, hl2⟩
    · exact (lexLe2_iff _ _ _ _).mpr (Or.inl (hltr _ _ _ h1' h2'))
    · exact (lexLe2_iff _ _ _ _).mpr (Or.inl (he2 ▸ h1'))
  · rcases (lexLe2_iff _ _ _ _).mp h2 with h2' | ⟨he2, hl2⟩
    · exact (lexLe2_iff _ _ _ _).mpr (Or.inl (he1 ▸ h2'))
    · exact (lexLe2_iff _ _ _ _).mpr (Or.inr ⟨he1.trans he2, htr _ _ _ hl1 hl2⟩)

theorem entryLe_total {K V : Type} (le : K → K → Bool)
    (h : ∀ a b, le a b = true ∨ le b a = true) (a b : K × V) :
    entryLe le a b = true ∨ entryLe le b a = true := h a.1 b.1

theorem entryLe_trans {K V : Type} (le : K → K → Bool)
    (htr : ∀ a b c, le a b = true → le b c = true → le a c = true) (a b c : K × V)
    (h1 : entryLe le a b = true) (h2 : entryLe le b c = true) : entryLe le a c = true :=
  htr a.1 b.1 c.1 h1 h2

theorem pairLe_total (a b : String × String) : pairLe a b = true ∨ pairLe b a = true :=
  lexLe2_total strLt strLe strLt_trichotomy strLe_total a b

theorem pairLe_trans (a b c : String × String) (h1 : pairLe a b = true)
    (h2 : pairLe b c = true) : pairLe a c = true :=
  lexLe2_trans strLt strLe strLt_trans strLe_trans a b c h1 h2

theorem innerLe_total (a b : Int × String) :
    lexLe2 intLt strLe a b = true ∨ lexLe2 intLt strLe b a = true :=
  lexLe2_total intLt strLe intLt_trichotomy strLe_total a b

theorem innerLe_trans (a b c : Int × String) (h1 : lexLe2 intLt strLe a b = true)
    (h2 : lexLe2 intLt strLe b c = true) : lexLe2 intLt strLe a c = true :=
  lexLe2_trans intLt strLe intLt_trans strLe_trans a b c h1 h2

theorem tripleLe_total (a b : String × Int × String) :
    tripleLe a b = true ∨ tripleLe b a = true :=
  lexLe2_total strLt (lexLe2 intLt strLe) strLt_trichotomy innerLe_total a b

theorem tripleLe_trans (a b c : String × Int × String) (h1 : tripleLe a b = true)
    (h2 : tripleLe b c = true) : tripleLe a c = true :=
  lexLe2_trans strLt (lexLe2 intLt strLe) strLt_trans innerLe_trans a b c h1 h2

theorem specOrderTotal_nil (o : String) : specOrderTotal o [] = 0 := rfl

theorem specOrderTotal_cons (o : String) (fr : FRow) (rest : List FRow) :
    specOrderTotal o (fr :: rest) =
      if orderNumOf fr.row = o then fr.rev + specOrderTotal o rest
      else specOrderTotal o rest := by
  by_cases h : orderNumOf fr.row = o
  · simp [specOrderTotal, List.filter_cons, h]
  · simp [specOrderTotal, List.filter_cons, h]

theorem firstNonzeroCost_cons (o : String) (fr : FRow) (rest : List FRow) :
    firstNonzeroCost o (fr :: rest) =
      if orderNumOf fr.row = o then
        (if costValueOf fr.row = 0 then firstNonzeroCost o rest
         else some (costValueOf fr.row))
      else firstNonzeroCost o rest := by
  by_cases h : orderNumOf fr.row = o
  · by_cases hc : costValueOf fr.row = 0
    · simp [firstNonzeroCost, List.filter_cons, h, List.find?_cons, hc]
    · simp [firstNonzeroCost, List.filter_cons, h, List.find?_cons, hc]
  · simp [firstNonzeroCost, List.filter_cons, h]

theorem revFold_getD (frs : List FRow) (acc : List (String × Rat)) (o : String)
    (ho : o ≠ "") :
    (alookup (frs.foldl revStep acc) o).getD 0 =
      (alookup acc o).getD 0 + specOrderTotal o frs := by
  induction frs generalizing acc with
  | nil => simp [specOrderTotal]
  | cons fr rest ih =>
    rw [List.foldl_cons, ih, specOrderTotal_cons]
    by_cases ho' : orderNumOf fr.row = ""
    · have hno : orderNumOf fr.row ≠ o := by
        rw [ho']
        exact fun h => ho h.symm
      rw [if_neg hno]
      simp only [revStep, if_pos ho']
    · by_cases heq : orderNumOf fr.row = o
      · have hne2 : orderNumOf fr.row ≠ "" := ho'
        rw [if_pos heq]
        simp only [revStep, if_neg hne2, alookup_updD, if_pos heq, Option.getD_some]
        rw [heq, add_assoc]
      · rw [if_neg heq]
        simp only [revStep, if_neg ho', alookup_updD, if_neg heq]

theorem revFold_blank (frs : List FRow) (acc : List (String × Rat))
    (h : alookup acc "" = none) : alookup (frs.foldl revStep acc) "" = none := by
  induction frs generalizing acc with
  | nil => exact h
  | cons fr rest ih =>
    rw [List.foldl_cons]
    by_cases ho' : orderNumOf fr.row = ""
    · exact ih _ (by simpa [revStep, ho'] using h)
    · refine ih _ ?_
      simp only [revStep, if_neg ho', alookup_updD, if_neg ho', h]

theorem costFold_or (frs : List FRow) (acc : List (String × Rat)) (o : String)
    (ho : o ≠ "") :
    alookup (frs.foldl costStep acc) o = (alookup acc o).or (firstNonzeroCost o frs) := by
  induction frs generalizing acc with
  | nil =>
    simp only [List.foldl_nil, firstNonzeroCost, List.filter_nil, List.map_nil,
      List.find?_nil, Option.or_none]
  | cons fr rest ih =>
    rw [List.foldl_cons, ih, firstNonzeroCost_cons]
    by_cases ho' : orderNumOf fr.row = ""
    · have hno : orderNumOf fr.row ≠ o := by
        rw [ho']
        exact fun h => ho h.symm
      rw [if_neg hno]
      simp only [costStep, if_pos ho']
    · by_cases heq : orderNumOf fr.row = o
      · rw [if_pos heq]
        by_cases hc : costValueOf fr.row = 0
        · rw [if_pos hc]
          have : ¬ (costValueOf fr.row ≠ 0 ∧ alookup acc (orderNumOf fr.row) = none) := by
            intro hand
            exact hand.1 hc
          simp only [costStep, if_neg ho', if_neg this]
        · rw [if_neg hc]
          by_cases hacc : alookup acc (orderNumOf fr.row) = none
          · simp only [costStep, if_neg ho', if_pos (And.intro hc hacc),
              alookup_append_single, if_pos heq]
            rw [heq] at hacc
            rw [hacc]
            simp
          · simp only [costStep, if_neg ho',
              if_neg (fun hand => hacc (And.right hand))]
            rw [heq] at hacc
            obtain ⟨x, hx⟩ := Option.ne_none_iff_exists'.mp hacc
            rw [hx]
            simp
      · rw [if_neg heq]
        by_cases hw : costValueOf fr.row ≠ 0 ∧ alookup acc (orderNumOf fr.row) = none
        · simp only [costStep, if_neg ho', if_pos hw, alookup_append_single, if_neg heq,
            Option.or_none]
        · simp only [costStep, if_neg ho', if_neg hw]

theorem costFold_blank (frs : List FRow) (acc : List (String × Rat))
    (h : alookup acc "" = none) : alookup (frs.foldl costStep acc) "" = none := by
  induction frs generalizing acc with
  | nil => exact h
  | cons fr rest ih =>
    rw [List.foldl_cons]
    by_cases ho' : orderNumOf fr.row = ""
    · exact ih _ (by simpa [costStep, ho'] using h)
    · by_cases hw : costValueOf fr.row ≠ 0 ∧ alookup acc (orderNumOf fr.row) = none
      · refine ih _ ?_
        simp [costStep, ho', hw, alookup_append_single, h]
      · refine ih _ ?_
        simpa [costStep, ho', hw] using h

theorem salesFilteredE_cons_none (r : Record) (l : List Record)
    (h : keepRowE r = .ok none) : salesFilteredE (r :: l) = salesFilteredE l := by
  simp only [salesFilteredE, h]
  cases salesFilteredE l <;> rfl

theorem salesFilteredE_drop (r : Record) (hr : keepRowE r = .ok none)
    (l₁ l₂ : List Record) :
    salesFilteredE (l₁ ++ r :: l₂) = salesFilteredE (l₁ ++ l₂) := by
  induction l₁ with
  | nil => simpa using salesFilteredE_cons_none r l₂ hr
  | cons a t ih =>
    simp only [List.cons_append, salesFilteredE]
    rw [show salesFilteredE (t.append (r :: l₂)) = salesFilteredE (t.append l₂) from ih]

theorem salesFilteredE_mem :
    ∀ (sales : List Record) (frs : List FRow), salesFilteredE sales = .ok frs →
      ∀ fr ∈ frs,
        2019 ≤ fr.year ∧ fr.year ≤ 2025 ∧
          ∃ d, parse_date (rget fr.row "Order Creation Date") = .ok (some d) ∧
            d.year = fr.year := by
  intro sales
  induction sales with
  | nil =>
    intro frs hok fr hmem
    simp only [salesFilteredE] at hok
    cases hok
    cases hmem
  | cons r rs ih =>
    intro frs hok fr hmem
    simp only [salesFilteredE] at hok
    cases hk : keepRowE r with
    | error e => rw [hk] at hok; cases hok
    | ok x =>
      rw [hk] at hok
      cases hrs : salesFilteredE rs with
      | error e => rw [hrs] at hok; cases hok
      | ok rest =>
        rw [hrs] at hok
        cases x with
        | none =>
          cases hok
          exact ih rest hrs fr hmem
        | some f =>
          cases hok
          rcases List.mem_cons.mp hmem with rfl | hm
          · simp only [keepRowE] at hk
            split at hk
            · cases hk
            · cases hk
            · rename_i d hp
              split at hk
              · cases hk
              · rename_i hy
                cases hk
                push_neg at hy
                exact ⟨hy.1, hy.2, d, hp, rfl⟩
          · exact ih rest hrs fr hm

theorem alookup_buildRecAux_notmem (row : List (Option String)) :
    ∀ (hs : List String) (i : Nat) (acc : Record) (h : String), h ∉ hs →
      alookup (buildRecAux row hs i acc) h = alookup acc h := by
  intro hs
  induction hs with
  | nil => intro i acc h _; rfl
  | cons h' t ih =>
    intro i acc h hno
    have hne : h' ≠ h := fun e => hno (e ▸ List.mem_cons_self h' t)
    have hnt : h ∉ t := fun m => hno (List.mem_cons_of_mem _ m)
    simp only [buildRecAux]
    rw [ih _ _ h hnt]
    by_cases hb : h' = ""
    · rw [if_pos hb]
    · rw [if_neg hb, alookup_dictSet, if_neg hne]

theorem alookup_buildRecAux_last (row : List (Option String)) :
    ∀ (hs : List String) (i : Nat) (acc : Record) (j : Nat) (hj : j < hs.length),
      hs.get ⟨j, hj⟩ ≠ "" →
      (∀ (k : Nat) (hk : k < hs.length), j < k → hs.get ⟨k, hk⟩ ≠ hs.get ⟨j, hj⟩) →
      alookup (buildRecAux row hs i acc) (hs.get ⟨j, hj⟩) =
        some ((row.get? (i + j)).getD none) := by
  intro hs
  induction hs with
  | nil =>
    intro i acc j hj
    exact absurd hj (Nat.not_lt_zero j)
  | cons h' t ih =>
    intro i acc j hj hne hlast
    cases j with
    | zero =>
      have hnotin : h' ∉ t := by
        intro hm
        obtain ⟨⟨m, hm2⟩, hget⟩ := List.mem_iff_get.mp hm
        exact hlast (m + 1) (Nat.succ_lt_succ hm2) (Nat.succ_pos m) hget
      have hkey : (h' :: t).get ⟨0, hj⟩ = h' := rfl
      rw [hkey] at hne ⊢
      simp only [buildRecAux]
      rw [alookup_buildRecAux_notmem row t _ _ _ hnotin]
      rw [if_neg hne, alookup_dictSet, if_pos rfl, Nat.add_zero]
    | succ j' =>
      have hj' : j' < t.length := Nat.lt_of_succ_lt_succ hj
      have hgs : (h' :: t).get ⟨j' + 1, hj⟩ = t.get ⟨j', hj'⟩ := rfl
      have hlast' : ∀ (k : Nat) (hk : k < t.length), j' < k →
          t.get ⟨k, hk⟩ ≠ t.get ⟨j', hj'⟩ := by
        intro k hk hjk
        exact hlast (k + 1) (Nat.succ_lt_succ hk) (Nat.succ_lt_succ hjk)
      simp only [buildRecAux]
      rw [hgs]
      rw [ih (i + 1) _ j' hj' (hgs ▸ hne) hlast']
      have harith : i + 1 + j' = i + (j' + 1) := by omega
      rw [harith]

theorem partGroups_key_mem :
    ∀ (ars : List ARow) (acc : List ((String × String) × PartGroup)) (k : String × String)
      (g : PartGroup), (k, g) ∈ ars.foldl partStep acc →
      (∃ g', (k, g') ∈ acc) ∨ ∃ ar ∈ ars, partKeyOf ar = some k := by
  intro ars
  induction ars with
  | nil =>
    intro acc k g hm
    exact Or.inl ⟨g, hm⟩
  | cons ar rest ih =>
    intro acc k g hm
    rw [List.foldl_cons] at hm
    rcases ih _ k g hm with hacc | ⟨ar', hmem, hk⟩
    · cases hpk : partKeyOf ar with
      | none =>
        rcases hacc with ⟨g', hg'⟩
        rw [partStep, hpk] at hg'
        exact Or.inl ⟨g', hg'⟩
      | some key =>
        rcases hacc with ⟨g', hg'⟩
        rw [partStep, hpk] at hg'
        rcases mem_updD _ _ _ _ _ _ hg' with ⟨g2, hg2⟩ | hkk
        · exact Or.inl ⟨g2, hg2⟩
        · refine Or.inr ⟨ar, List.mem_cons_self _ _, ?_⟩
          rw [hpk, hkk]
    · exact Or.inr ⟨ar', List.mem_cons_of_mem _ hmem, hk⟩

theorem parse_date_total (v : Option String)
    (h : ∀ s, v = some s → ¬ serialOverflows s) : ∃ x, parse_date v = .ok x := by
  cases v with
  | none => exact ⟨none, rfl⟩
  | some s =>
    have hs := h s rfl
    simp only [parse_date]
    by_cases h0 : pyStrip s = ""
    · rw [if_pos h0]
      exact ⟨none, rfl⟩
    · rw [if_neg h0]
      by_cases hser : isSerialPat (pyStrip s).data = true
      · rw [if_pos hser]
        by_cases hrange :
            minOrd ≤ epochOrd + ((pyFloat? (pyStrip s)).getD 0).floor ∧
              epochOrd + ((pyFloat? (pyStrip s)).getD 0).floor ≤ maxOrd
        · rw [if_pos hrange]
          exact ⟨_, rfl⟩
        · exfalso
          apply hs
          refine ⟨hser, ?_⟩
          omega
      · rw [if_neg hser]
        cases strptimeAny (pyStrip s).data with
        | some d => exact ⟨some d, rfl⟩
        | none => exact ⟨isoDate? (pyStrip s), rfl⟩

theorem procCells_ok (ss : List String) :
    ∀ (cells : List Cell) (rv : List (Int × Option String)) (mc : Int),
      (∀ c ∈ cells,
        (∀ ref, c.r = some ref → ref ≠ "" → leadUpper ref ≠ []) ∧
        (c.t = some "s" → ∀ txt, c.v = some (some txt) →
          ∃ i, pyInt? txt = some i ∧ ∃ x, pyIndex ss i = .ok x)) →
      ∃ out, procCells ss cells rv mc = .ok out := by
  intro cells
  induction cells with
  | nil =>
    intro rv mc _
    exact ⟨(rv, mc), rfl⟩
  | cons c cs ih =>
    intro rv mc hall
    have hc := hall c (List.mem_cons_self _ _)
    have hcs : ∀ c' ∈ cs, _ := fun c' hm => hall c' (List.mem_cons_of_mem _ hm)
    cases hr : c.r with
    | none =>
      simp only [procCells, hr]
      exact ih rv mc hcs
    | some ref =>
      simp only [procCells, hr]
      by_cases href : ref = ""
      · rw [if_pos href]
        exact ih rv mc hcs
      · rw [if_neg href]
        have hlead : leadUpper ref ≠ [] := hc.1 ref hr href
        rw [if_neg hlead]
        have hres : ∃ val, resolveCell ss c = .ok val := by
          by_cases hts : c.t = some "s"
          · cases hv : c.v with
            | none =>
              refine ⟨none, ?_⟩
              simp [resolveCell, hts, hv]
            | some inner =>
              cases inner with
              | none =>
                refine ⟨none, ?_⟩
                simp [resolveCell, hts, hv]
              | some txt =>
                obtain ⟨i, hpi, x, hpx⟩ := hc.2 hts txt (by rw [hv])
                refine ⟨some x, ?_⟩
                simp [resolveCell, hts, hv, hpi, hpx]
          · by_cases hti : c.t = some "inlineStr"
            · exact ⟨c.isE, by simp [resolveCell, hts, hti]⟩
            · cases hv : c.v with
              | none => exact ⟨none, by simp [resolveCell, hts, hti, hv]⟩
              | some txt => exact ⟨txt, by simp [resolveCell, hts, hti, hv]⟩
        obtain ⟨val, hval⟩ := hres
        rw [hval]
        exact ih _ _ hcs

theorem parse_sheet_ok (ss : List String) :
    ∀ rows : List (List Cell),
      (∀ row ∈ rows, ∀ c ∈ row,
        (∀ ref, c.r = some ref → ref ≠ "" → leadUpper ref ≠ []) ∧
        (c.t = some "s" → ∀ txt, c.v = some (some txt) →
          ∃ i, pyInt? txt = some i ∧ ∃ x, pyIndex ss i = .ok x)) →
      ∃ g, parse_sheet ss rows = .ok g := by
  intro rows
  induction rows with
  | nil =>
    intro _
    exact ⟨[], rfl⟩
  | cons row rest ih =>
    intro hall
    obtain ⟨⟨rv, mc⟩, hout⟩ :=
      procCells_ok ss row [] (-1) (fun c hm => hall row (List.mem_cons_self _ _) c hm)
    obtain ⟨g, hg⟩ := ih (fun r hm => hall r (List.mem_cons_of_mem _ hm))
    refine ⟨if rv = [] then g else densify rv mc :: g, ?_⟩
    simp only [parse_sheet]
    rw [hout, hg]

/-- C6: the numeric coercion is total and behaves as specified: absent input
yields 0, textual input has every comma removed and is trimmed and coerces
to 0 when empty or non-numeric after cleaning, the quoted examples hold, and
already-numeric input passes through unchanged.  Totality is witnessed by
the function's plain (non-Except) return type. -/
theorem claim_C6_to_float :
    (∀ s : String, pyFloat? (pyStrip (stripCommas s)) = none → to_float (.str s) = 0) ∧
    (to_float PyVal.none = 0) ∧
    (∀ s : String, to_float (.str s) =
      (if pyStrip (stripCommas s) = "" then 0
       else (pyFloat? (pyStrip (stripCommas s))).getD 0)) ∧
    (to_float (.str "1,234.50") = 1234.5) ∧
    (to_float (.str "") = 0) ∧
    (to_float (.str "abc") = 0) ∧
    (∀ q : Rat, to_float (.num q) = q) := by
  refine ⟨?_, rfl, fun s => rfl, by decide, rfl,
    by decide, fun q => rfl⟩
  intro s h
  simp only [to_float]
  split
  · rfl
  · rw [h]
    rfl

/-- C6 witness: the non-numeric implication discharged at a concrete
string. -/
theorem claim_C6_to_float_witness : to_float (.str "x,y z") = 0 :=
  claim_C6_to_float.1 "x,y z" (by decide)

/-- C7: the claim says parse_date never raises, but the serial branch only
guards ValueError; the serial text 3000000 shifts the epoch past the year
9999 and the resulting OverflowError escapes, aborting the run.  The
embedding records that abort as an error result. -/
theorem claim_C7_overflow : parse_date (some "3000000") = .error () := by
  decide

/-- C5 counterexample: a stored shared-string index of -1 is out of range of
the one-entry table (valid positions are only index 0), yet decoding
succeeds with the last entry through Python negative indexing instead of
failing. -/
theorem claim_C5_counterexample :
    parse_sheet ["x"] [[⟨some "A1", some "s", some (some "-1"), Option.none⟩]] =
      .ok [[some "x"]] := by decide

/-- C5 amended: a stored index at or beyond the table length, or below
minus the length, aborts decoding; an index in range yields the entry at
that position; a negative index within minus-length wraps around to the
entry at length plus index instead of failing; and a sheet-decoding abort
makes the whole run abort before any output text is produced. -/
theorem claim_C5_amended :
    (∀ (ss : List String) (i : Int),
      ((i < -(ss.length : Int) ∨ (ss.length : Int) ≤ i) → pyIndex ss i = .error ()) ∧
      ((0 ≤ i ∧ i < (ss.length : Int)) →
        ∃ x, ss.get? i.toNat = some x ∧ pyIndex ss i = .ok x) ∧
      ((-(ss.length : Int) ≤ i ∧ i < 0) →
        ∃ x, ss.get? (i + ss.length).toNat = some x ∧ pyIndex ss i = .ok x)) ∧
    (∀ (ss : List String) (sheet1 sheet2 : List (List Cell)),
      parse_sheet ss sheet1 = .error () → fullRun ss sheet1 sheet2 = .error ()) := by
  constructor
  · intro ss i
    refine ⟨?_, ?_, ?_⟩
    · intro h
      by_cases hneg : i < 0
      · simp only [pyIndex, if_pos hneg]
        rw [dif_neg]
        omega
      · simp only [pyIndex, if_neg hneg]
        rw [dif_neg]
        omega
    · intro h
      have hneg : ¬ i < 0 := by omega
      have hlt : i.toNat < ss.length := by omega
      refine ⟨ss.get ⟨i.toNat, hlt⟩, List.get?_eq_get hlt, ?_⟩
      simp only [pyIndex, if_neg hneg]
      rw [dif_pos ⟨h.1, h.2⟩]
    · intro h
      have hneg : i < 0 := h.2
      have hlt : (i + ss.length).toNat < ss.length := by omega
      refine ⟨ss.get ⟨(i + ss.length).toNat, hlt⟩, List.get?_eq_get hlt, ?_⟩
      simp only [pyIndex, if_pos hneg]
      rw [dif_pos ⟨by omega, by omega⟩]
  · intro ss sheet1 sheet2 herr
    simp only [fullRun, herr]

/-- C5 amended witness: the failure and wraparound clauses discharged at
concrete indexes. -/
theorem claim_C5_amended_witness :
    pyIndex ["a", "b"] (5 : Int) = .error () ∧
      ∃ x, ["a", "b"].get? ((-1 : Int) + (2 : Nat)).toNat = some x ∧
        pyIndex ["a", "b"] (-1 : Int) = .ok x :=
  ⟨(claim_C5_amended.1 ["a", "b"] 5).1 (Or.inr (by norm_num)),
   (claim_C5_amended.1 ["a", "b"] (-1)).2.2 ⟨by norm_num, by norm_num⟩⟩

/-- C3: for every trimmed non-empty order number, the recorded cost over
the working set equals the first nonzero coerced cost among that order's
rows in input order; zero costs never record and later nonzero costs never
overwrite, both consequences of the equality with the first-match scan. -/
theorem claim_C3_first_cost :
    (∀ (frs : List FRow) (o : String), o ≠ "" →
      alookup (orderCostM frs) o = firstNonzeroCost o frs) ∧
    (alookup
      (orderCostM
        [⟨[("Sales Order Number", some "A"), ("(As Sold Cost) $", some "0")], 2020, 1⟩,
         ⟨[("Sales Order Number", some "A"), ("(As Sold Cost) $", some "5")], 2020, 1⟩,
         ⟨[("Sales Order Number", some "A"), ("(As Sold Cost) $", some "9")], 2020, 1⟩])
      "A" = some 5) := by
  constructor
  · intro frs o ho
    simp only [orderCostM]
    rw [costFold_or frs [] o ho]
    rfl
  · decide

/-- C3 witness: the characterisation discharged at a concrete working set
and order number. -/
theorem claim_C3_first_cost_witness :
    alookup (orderCostM []) "B" = firstNonzeroCost "B" [] :=
  claim_C3_first_cost.1 [] "B" (by decide)

/-- C10: rows_to_dicts projects each data row against the normalized first
row, and when two or more columns share the same non-blank normalized
header every produced record maps that header to the cell value of the
rightmost such column; values at earlier duplicate positions are silently
discarded (later dict assignments overwrite earlier ones). -/
theorem claim_C10_rightmost_wins :
    (∀ (r0 : List (Option String)) (rows : List (List (Option String))),
      rows_to_dicts (r0 :: rows) = .ok (rows.map (buildRecord (r0.map normalize_header)))) ∧
    (∀ (hs : List String) (row : List (Option String)) (j : Nat) (hj : j < hs.length),
      hs.get ⟨j, hj⟩ ≠ "" →
      (∀ (k : Nat) (hk : k < hs.length), j < k → hs.get ⟨k, hk⟩ ≠ hs.get ⟨j, hj⟩) →
      rget (buildRecord hs row) (hs.get ⟨j, hj⟩) = (row.get? j).getD none) := by
  constructor
  · intro r0 rows
    rfl
  · intro hs row j hj hne hlast
    unfold rget buildRecord
    rw [alookup_buildRecAux_last row hs 0 [] j hj hne hlast]
    simp

/-- C10 witness: with the duplicate header list A, A the record holds the
rightmost column's value. -/
theorem claim_C10_rightmost_wins_witness :
    rget (buildRecord ["A", "A"] [some "x", some "y"]) "A" = some "y" := by
  have h := claim_C10_rightmost_wins.2 ["A", "A"] [some "x", some "y"] 1 (by decide)
    (by decide)
    (by intro k hk hgt
        simp only [List.length_cons, List.length_nil] at hk
        omega)
  exact h

/-- C9 counterexample: the record projector subscripts the first row before
any emptiness check, so a worksheet that decodes to zero rows makes the
stage fail (an uncaught IndexError) instead of returning a result, refuting
the totality claim at the input the claim itself names. -/
theorem claim_C9_counterexample : rows_to_dicts [] = .error () := rfl

/-- C9 amended: numeric coercion, allocation and aggregation are total, and
record projection returns a result on every nonempty grid; but three stages
are partial: record projection fails on a zero-row grid, cell-grid decoding
fails on a cell whose reference has no leading uppercase letters (and on
unresolvable shared-string cells), and date coercion fails exactly on
serial values whose shifted date leaves the representable range.  Decoding
succeeds whenever every cell has a well-formed reference and a resolvable
shared-string index. -/
theorem claim_C9_amended :
    (∀ (r0 : List (Option String)) (rest : List (List (Option String))),
      ∃ recs, rows_to_dicts (r0 :: rest) = .ok recs) ∧
    (∀ (ss : List String) (c : Cell) (ref : String), c.r = some ref → ref ≠ "" →
      leadUpper ref = [] →
      ∀ (cells : List Cell) (rv : List (Int × Option String)) (mc : Int),
        procCells ss (c :: cells) rv mc = .error ()) ∧
    (∀ (ss : List String) (rows : List (List Cell)),
      (∀ row ∈ rows, ∀ c ∈ row,
        (∀ ref, c.r = some ref → ref ≠ "" → leadUpper ref ≠ []) ∧
        (c.t = some "s" → ∀ txt, c.v = some (some txt) →
          ∃ i, pyInt? txt = some i ∧ ∃ x, pyIndex ss i = .ok x)) →
      ∃ g, parse_sheet ss rows = .ok g) ∧
    (∀ v : Option String, (∀ s, v = some s → ¬ serialOverflows s) →
      ∃ x, parse_date v = .ok x) ∧
    (∀ frs : List FRow, (allocRows frs).length = frs.length) := by
  refine ⟨fun r0 rest => ⟨_, rfl⟩, ?_, parse_sheet_ok, parse_date_total,
    fun frs => by simp [allocRows]⟩
  intro ss c ref hr href hlead cells rv mc
  simp only [procCells, hr]
  rw [if_neg href, if_pos hlead]

/-- C9 amended witness: the date-coercion totality clause discharged at a
concrete non-serial string. -/
theorem claim_C9_amended_witness : ∃ x, parse_date (some "hello") = .ok x :=
  claim_C9_amended.2.2.2.1 (some "hello")
    (by intro s hs; cases hs; decide)

/-- C2: every working-set row carries a parsed order-creation year within
2019..2025, inserting a record the year filter drops (year absent or out of
window) anywhere in the sales input leaves all four report texts unchanged,
and records dated in 2018 and 2026 are dropped. -/
theorem claim_C2_year_window :
    (∀ (sales : List Record) (frs : List FRow), salesFilteredE sales = .ok frs →
      ∀ fr ∈ frs, 2019 ≤ fr.year ∧ fr.year ≤ 2025 ∧
        ∃ d, parse_date (rget fr.row "Order Creation Date") = .ok (some d) ∧
          d.year = fr.year) ∧
    (∀ (r : Record), keepRowE r = .ok none →
      ∀ (l₁ l₂ inv : List Record),
        pipelineRecs (l₁ ++ r :: l₂) inv = pipelineRecs (l₁ ++ l₂) inv) ∧
    (keepRowE rec2018 = .ok none) ∧ (keepRowE rec2026 = .ok none) := by
  refine ⟨salesFilteredE_mem, ?_, by decide, by decide⟩
  intro r hr l₁ l₂ inv
  simp only [pipelineRecs, salesFilteredE_drop r hr l₁ l₂]

/-- C2 witness: dropping the 2018-dated record leaves the run unchanged. -/
theorem claim_C2_year_window_witness :
    pipelineRecs ([] ++ rec2018 :: []) [] = pipelineRecs ([] ++ []) [] :=
  claim_C2_year_window.2.1 rec2018 (by decide) [] [] []

/-- C1: each working-set row's allocated cost is the order's recorded cost
times the row's share of the order's total revenue (the sum of that order's
row revenues over the working set) when the total is strictly positive, and
zero otherwise, rows without an order number included; on the 60/40 order
with cost 10 the allocations are exactly 6 and 4 and sum exactly to 10, and
an order with zero total revenue allocates zero despite its nonzero cost. -/
theorem claim_C1_allocation :
    (∀ (frs : List FRow) (ar : ARow), ar ∈ allocRows frs →
      ar.costAlloc =
        (if orderNumOf ar.row ≠ "" ∧ 0 < specOrderTotal (orderNumOf ar.row) frs then
          ((alookup (orderCostM frs) (orderNumOf ar.row)).getD 0) *
            (ar.rev / specOrderTotal (orderNumOf ar.row) frs)
         else 0)) ∧
    ((allocRows c1Frs).map ARow.costAlloc = [6, 4]) ∧
    (((allocRows c1Frs).map ARow.costAlloc).sum = 10) ∧
    ((allocRows c1ZeroFrs).map ARow.costAlloc = [0, 0]) := by
  refine ⟨?_, by decide, by decide, by decide⟩
  intro frs ar hm
  simp only [allocRows] at hm
  obtain ⟨fr, hfr, rfl⟩ := List.mem_map.mp hm
  show (if 0 < (alookup (orderRevenueM frs) (orderNumOf fr.row)).getD 0 then
      ((alookup (orderCostM frs) (orderNumOf fr.row)).getD 0) *
        (fr.rev / (alookup (orderRevenueM frs) (orderNumOf fr.row)).getD 0)
    else 0) = _
  by_cases ho : orderNumOf fr.row = ""
  · rw [ho]
    have hblank : alookup (orderRevenueM frs) "" = none :=
      revFold_blank frs [] rfl
    simp only [orderRevenueM] at hblank ⊢
    rw [hblank]
    simp
  · have htot : (alookup (orderRevenueM frs) (orderNumOf fr.row)).getD 0 =
        specOrderTotal (orderNumOf fr.row) frs := by
      simp only [orderRevenueM]
      rw [revFold_getD frs [] (orderNumOf fr.row) ho]
      simp [alookup]
    rw [htot]
    by_cases hpos : 0 < specOrderTotal (orderNumOf fr.row) frs
    · rw [if_pos hpos, if_pos (And.intro ho hpos)]
    · rw [if_neg hpos, if_neg (fun hand => hpos hand.2)]

/-- C1 witness: the allocation formula discharged at the first row of the
60/40 example order. -/
theorem claim_C1_allocation_witness :
    (⟨[("Sales Order Number", some "SO1"), ("(As Sold Cost) $", some "10")], 2024, 60, 6⟩ :
      ARow).costAlloc = 6 := by
  have h := claim_C1_allocation.1 c1Frs
    ⟨[("Sales Order Number", some "SO1"), ("(As Sold Cost) $", some "10")], 2024, 60, 6⟩
    (by decide)
  rw [h]
  decide

/-- C4: on the two-row sales sheet with a matching inventory row, the
part-level report holds exactly one data row, for key (S1, P1), with
revenue 150, units 15, two distinct customers, on-hand 20 joined from
inventory and the entire order cost 30 allocated, and the whole run yields
exactly the four expected report texts; in general every part-level row
takes its on-hand quantity from the inventory totals with default zero, and
every part-level row's key originates in some sales working-set row, so a
key present only in inventory produces no part-level row (left join on
sales). -/
theorem claim_C4_part_level :
    ((rows_to_dicts exSalesGrid).bind (fun sales =>
      (rows_to_dicts exInvGrid).bind (fun inv =>
        (salesFilteredE sales).map (fun frs =>
          partRowsOf (inventoryTotals inv) (allocRows frs)))) =
      .ok [⟨"S1", "P1", 150, 15, 2, 100, 50, 10, 5, 1, 1, 20, 30⟩]) ∧
    (runPipelineGrids exSalesGrid exInvGrid =
      .ok
        ⟨"Site,Part No,Onhand Qty\nS1,P1,20.0\n",
         "Site,Part Number,Revenue_GBP,Units,Customer_Count,Internal_Revenue_GBP," ++
           "External_Revenue_GBP,Internal_Units,External_Units,Internal_Customer_Count," ++
           "External_Customer_Count,Onhand_Qty,Cost_Allocated_USD,Revenue_USD,Margin_USD\n" ++
           "S1,P1,150.0,15.0,2,100.0,50.0,10.0,5.0,1,1,20.0,30.0,,\n",
         "Site,Customer Name,Customer_Type,Revenue_GBP,Units,Opportunity_Count," ++
           "Cost_Allocated_USD,Revenue_USD,Margin_USD\n" ++
           "S1,Acme Ltd,External,50.0,5.0,0,10.0,,\n" ++
           "S1,Ethos Operations,Internal,100.0,10.0,1,20.0,,\n",
         "Site,Year,Part Number,Customer_Count,Internal_Customer_Count," ++
           "External_Customer_Count\nS1,2024,P1,2,1,1\n"⟩) ∧
    (∀ (invT : List ((String × String) × Rat)) (ars : List ARow) (p : PartRow),
      p ∈ partRowsOf invT ars →
        p.onhand = round2 ((alookup invT (p.site, p.part)).getD 0) ∧
        ∃ ar ∈ ars, partKeyOf ar = some (p.site, p.part)) := by
  refine ⟨by decide, by decide, ?_⟩
  intro invT ars p hp
  simp only [partRowsOf] at hp
  obtain ⟨e, he, rfl⟩ := List.mem_map.mp hp
  have he2 : (e.1, e.2) ∈ partGroups ars := by
    rw [Prod.mk.eta]
    exact (mem_isortBy _ _ _).mp he
  constructor
  · rfl
  · simp only [partGroups] at he2
    rcases partGroups_key_mem ars [] e.1 e.2 he2 with ⟨g', hg'⟩ | ⟨ar, hmem, hk⟩
    · cases hg'
    · exact ⟨ar, hmem, hk⟩

/-- C4 witness: the left-join clause discharged at a one-row working set
with empty inventory. -/
theorem claim_C4_part_level_witness :
    (⟨"S1", "P1", 5, 0, 1, 0, 5, 0, 0, 0, 1, 0, 0⟩ : PartRow).onhand =
      round2 ((alookup ([] : List ((String × String) × Rat)) ("S1", "P1")).getD 0) ∧
    ∃ ar ∈ [(⟨[("Site", some "S1"), ("Part Number", some "P1")], 2024, 5, 0⟩ : ARow)],
      partKeyOf ar = some ("S1", "P1") :=
  claim_C4_part_level.2.2 []
    [⟨[("Site", some "S1"), ("Part Number", some "P1")], 2024, 5, 0⟩]
    ⟨"S1", "P1", 5, 0, 1, 0, 5, 0, 0, 0, 1, 0, 0⟩ (by decide)

/-- C8: a run is a pure function of its inputs, so two runs on identical
input give identical (hence byte-identical under UTF-8) report texts; each
report text is the fixed header line followed by the data rows, every row
terminated by exactly one newline with nothing after the final row; and
each report's data rows are sorted ascending by its key tuple. -/
theorem claim_C8_determinism_format :
    (∀ (s i : List Record) (o₁ o₂ : Outputs),
      pipelineRecs s i = .ok o₁ → pipelineRecs s i = .ok o₂ →
        o₁ = o₂ ∧ o₁.inventoryCsv.toUTF8 = o₂.inventoryCsv.toUTF8 ∧
        o₁.partCsv.toUTF8 = o₂.partCsv.toUTF8 ∧
        o₁.customerCsv.toUTF8 = o₂.customerCsv.toUTF8 ∧
        o₁.countsCsv.toUTF8 = o₂.countsCsv.toUTF8) ∧
    (∀ (s i : List Record) (o : Outputs), pipelineRecs s i = .ok o →
      ∃ frs, salesFilteredE s = .ok frs ∧
        o.inventoryCsv = write_csv invHeaders ((invRowsOf i).map invFields) ∧
        o.partCsv =
          write_csv partHeaders
            ((partRowsOf (inventoryTotals i) (allocRows frs)).map partFields) ∧
        o.customerCsv = write_csv custHeaders ((custRowsOf (allocRows frs)).map custFields) ∧
        o.countsCsv = write_csv countHeaders ((countRowsOf (allocRows frs)).map countFields)) ∧
    (∀ i : List Record,
      (invRowsOf i).Pairwise (fun a b => pairLe a.1 b.1 = true)) ∧
    (∀ (invT : List ((String × String) × Rat)) (ars : List ARow),
      (partRowsOf invT ars).Pairwise
        (fun a b => pairLe (a.site, a.part) (b.site, b.part) = true)) ∧
    (∀ ars : List ARow,
      (custRowsOf ars).Pairwise (fun a b => pairLe (a.site, a.name) (b.site, b.name) = true)) ∧
    (∀ ars : List ARow,
      (countRowsOf ars).Pairwise
        (fun a b => tripleLe (a.site, a.year, a.part) (b.site, b.year, b.part) = true)) := by
  refine ⟨?_, ?_, ?_, ?_, ?_, ?_⟩
  · intro s i o₁ o₂ h1 h2
    rw [h1] at h2
    cases h2
    exact ⟨rfl, rfl, rfl, rfl, rfl⟩
  · intro s i o h
    cases hfrs : salesFilteredE s with
    | error e =>
      rw [pipelineRecs, hfrs] at h
      cases h
    | ok frs =>
      rw [pipelineRecs, hfrs] at h
      cases h
      exact ⟨frs, rfl, rfl, rfl, rfl, rfl⟩
  · intro i
    exact (pairwise_isortBy _ (entryLe_total pairLe pairLe_total)
      (entryLe_trans pairLe pairLe_trans) _).imp (fun h => h)
  · intro invT ars
    exact List.pairwise_map.mpr ((pairwise_isortBy _ (entryLe_total pairLe pairLe_total)
      (entryLe_trans pairLe pairLe_trans) _).imp (fun h => h))
  · intro ars
    exact List.pairwise_map.mpr ((pairwise_isortBy _ (entryLe_total pairLe pairLe_total)
      (entryLe_trans pairLe pairLe_trans) _).imp (fun h => h))
  · intro ars
    exact List.pairwise_map.mpr ((pairwise_isortBy _ (entryLe_total tripleLe tripleLe_total)
      (entryLe_trans tripleLe tripleLe_trans) _).imp (fun h => h))

/-- C8 witness: the per-report structure clause discharged on the empty
input, whose run yields the four header-only report texts. -/
theorem claim_C8_determinism_format_witness :
    ∃ frs, salesFilteredE ([] : List Record) = .ok frs ∧
      headerOnlyOutputs.inventoryCsv =
        write_csv invHeaders ((invRowsOf ([] : List Record)).map invFields) ∧
      headerOnlyOutputs.partCsv =
        write_csv partHeaders
          ((partRowsOf (inventoryTotals ([] : List Record)) (allocRows frs)).map partFields) ∧
      headerOnlyOutputs.customerCsv =
        write_csv custHeaders ((custRowsOf (allocRows frs)).map custFields) ∧
      headerOnlyOutputs.countsCsv =
        write_csv countHeaders ((countRowsOf (allocRows frs)).map countFields) :=
  claim_C8_determinism_format.2.1 [] [] headerOnlyOutputs (by decide)

end Ethos
